import Mathlib

/-!
Verification of `enn/networks/utils.py` (ENN adapter layer).

The module is a set of pure higher-order adapters over "epistemic neural
network" triples.  We embed the data model shallowly:

* tensors (`chex.Array` / `jnp` arrays) become a `shape`/`data` record over
  exact rationals (`ℚ` stands in for floating point; all arithmetic the
  claims touch is exact);
* `base.Output` is the tagged union of a raw tensor and `OutputWithPrior`;
* `hk.Params` is kept as an abstract type parameter (the adapters never
  inspect it); `hk.State` is a finite string-keyed mapping of tensors, so
  that the adapters can build the empty mapping `{}`;
* the network triples become structures of function fields, exactly the
  record-of-closures shape of the Python code;
* the `assert x_train.ndim > 1` precondition is modelled by returning
  `Option`: `none` is the raised `AssertionError`.
-/

/-- A `jnp` array: a shape (list of axis lengths) together with the flat
row-major data.  Rationals stand in for floats. -/
structure Tensor where
  shape : List Nat
  data : List ℚ
deriving DecidableEq, Repr

namespace Tensor

/-- `ndim`: the rank of the array, `len(t.shape)`. -/
def ndim (t : Tensor) : Nat := t.shape.length

/-- Elementwise map, preserving shape (model of a `jnp` elementwise op
against a scalar operand). -/
def emap (f : ℚ → ℚ) (t : Tensor) : Tensor := ⟨t.shape, t.data.map f⟩

/-- Elementwise binary op on same-shaped arrays (the only case the adapters
exercise; shape mismatch is an error of the underlying tensor algebra and
is out of scope per the spec). -/
def ezip (f : ℚ → ℚ → ℚ) (t u : Tensor) : Tensor :=
  ⟨t.shape, List.zipWith f t.data u.data⟩

/-- `t - u` elementwise. -/
def esub (t u : Tensor) : Tensor := ezip (fun a b => a - b) t u

/-- `t / u` elementwise. -/
def ediv (t u : Tensor) : Tensor := ezip (fun a b => a / b) t u

/-- `t * c` for a scalar `c` (the `out * scale` broadcast). -/
def escale (t : Tensor) (c : ℚ) : Tensor := emap (fun v => v * c) t

/-- `t + c` for a scalar `c` (the `x_std + 1e-9` broadcast). -/
def eaddc (t : Tensor) (c : ℚ) : Tensor := emap (fun v => v + c) t

/-- `jnp.zeros_like(t)`. -/
def zeros_like (t : Tensor) : Tensor := emap (fun _ => 0) t

/-- `jnp.mean(t, axis=0)`: for shape `n :: rest`, the per-feature mean over
the leading (batch) axis; on a rank-0 array it is the array itself. -/
def mean0 (t : Tensor) : Tensor :=
  match t.shape with
  | [] => t
  | n :: rest =>
    let m := rest.prod
    ⟨rest, (List.range m).map (fun j =>
      (((List.range n).map (fun i => t.data.getD (i * m + j) 0)).sum) / (n : ℚ))⟩

/-- The variance over axis 0: per-feature mean of squared deviations from
`mean0`. -/
def var0 (t : Tensor) : Tensor :=
  match t.shape with
  | [] => zeros_like t
  | n :: rest =>
    let m := rest.prod
    let mu := mean0 t
    ⟨rest, (List.range m).map (fun j =>
      (((List.range n).map (fun i =>
        let d := t.data.getD (i * m + j) 0 - mu.data.getD j 0
        d * d)).sum) / (n : ℚ))⟩

/-- `jnp.std(t, axis=0)`: square root of `var0`.  `Rat.sqrt` is the exact
stand-in for the floating-point square root (exact on perfect squares; no
claim depends on its value elsewhere). -/
def std0 (t : Tensor) : Tensor := ⟨(var0 t).shape, (var0 t).data.map Rat.sqrt⟩

end Tensor

/-- Modelled from the spec: the labeled union member
`OutputWithPrior{train, prior, extra}` of `enn/base.py` (that file is not
under `src/`).  `train` is the trainable component, `prior` the fixed
un-trained component, `extra` an open mapping of auxiliary named tensors. -/
structure OutputWithPrior where
  train : Tensor
  prior : Tensor
  extra : List (String × Tensor) := []
deriving DecidableEq, Repr

/-- Modelled from the spec: `OutputWithPrior.preds`, the prediction tensor
exposed by `enn/base.py` (not under `src/`); the spec says
`parse_net_output` on the labeled-union shape "returns its `train` field",
so the prediction accessor is the `train` component. -/
def OutputWithPrior.preds (o : OutputWithPrior) : Tensor := o.train

/-- `base.Output`: either a raw prediction tensor or the labeled union.
The Python `isinstance(net_out, base.OutputWithPrior)` test becomes a match
on the tag. -/
inductive Output where
  | raw (t : Tensor)
  | withPrior (o : OutputWithPrior)
deriving DecidableEq, Repr

/-- `hk.State`: a string-keyed mapping of tensors; the Python literal `{}`
is `[]`. -/
def HkState : Type := List (String × Tensor)
deriving instance DecidableEq, Repr for HkState

/-- `network_base.EpistemicNetwork`: a stateless triple of closures.
`P` = `hk.Params`, `X` = input array type, `Z` = `base.Index`,
`K` = `chex.PRNGKey`. -/
structure EpistemicNetwork (P X Z K : Type) where
  apply : P → X → Z → Output
  init : K → X → Z → P
  indexer : K → Z

/-- `network_base.EpistemicNetworkWithState`: the stateful triple. -/
structure EpistemicNetworkWithState (P X Z K : Type) where
  apply : P → HkState → X → Z → Output × HkState
  init : K → X → Z → P × HkState
  indexer : K → Z

/-- `hk.Transformed`: a plain `(init, apply)` pair for `y = f(x)`. -/
structure Transformed (P X K : Type) where
  init : K → X → P
  apply : P → X → Output

/-- `parse_net_output`: the labeled-union shape yields `net_out.preds`,
anything else is returned unchanged. -/
def parse_net_output (net_out : Output) : Tensor :=
  match net_out with
  | .withPrior o => o.preds
  | .raw t => t

/-- `parse_to_output_with_prior`: the labeled-union shape is returned
unchanged; a raw tensor is lifted with `prior = jnp.zeros_like(net_out)`
(and the default empty `extra`). -/
def parse_to_output_with_prior (net_out : Output) : OutputWithPrior :=
  match net_out with
  | .withPrior o => o
  | .raw t => { train := t, prior := Tensor.zeros_like t }

/-- `wrap_apply_as_apply_with_state`: ignore the incoming state, return the
stateless output paired with the empty state `{}`. -/
def wrap_apply_as_apply_with_state {P X Z : Type}
    (apply : P → X → Z → Output) : P → HkState → X → Z → Output × HkState :=
  fun params _unused_state inputs index => (apply params inputs index, [])

/-- `wrap_init_as_init_with_state`: return `(params, {})`. -/
def wrap_init_as_init_with_state {P X Z K : Type}
    (init : K → X → Z → P) : K → X → Z → P × HkState :=
  fun key inputs index => (init key inputs index, [])

/-- `wrap_enn_as_enn_with_state`: wrap both `apply` and `init`, keep the
indexer. -/
def wrap_enn_as_enn_with_state {P X Z K : Type}
    (enn : EpistemicNetwork P X Z K) : EpistemicNetworkWithState P X Z K where
  apply := wrap_apply_as_apply_with_state enn.apply
  init := wrap_init_as_init_with_state enn.init
  indexer := enn.indexer

/-- `wrap_enn_with_state_as_enn`: fix the state to `constant_state`
(default `{}` when `None`), keep only the params from `init` and only the
output from `apply`. -/
def wrap_enn_with_state_as_enn {P X Z K : Type}
    (enn : EpistemicNetworkWithState P X Z K)
    (constant_state : Option HkState) : EpistemicNetwork P X Z K :=
  let cs := constant_state.getD []
  { apply := fun params x z => (enn.apply params cs x z).1
    init := fun key x z => (enn.init key x z).1
    indexer := enn.indexer }

/-- `wrap_transformed_as_enn`: lift an `(init, apply)` pair into the ENN
triple, ignoring the index argument; the indexer is the identity. -/
def wrap_transformed_as_enn {P X K : Type}
    (transformed : Transformed P X K) : EpistemicNetwork P X K K where
  apply := fun params x _z => transformed.apply params x
  init := fun key x _z => transformed.init key x
  indexer := fun key => key

/-- `scale_enn_output`: multiply the output of `apply` by `scale`,
branching on the output shape; the state, `init` and `indexer` pass
through. -/
def scale_enn_output {P X Z K : Type}
    (enn : EpistemicNetworkWithState P X Z K) (scale : ℚ) :
    EpistemicNetworkWithState P X Z K where
  apply := fun params state inputs index =>
    let os := enn.apply params state inputs index
    let scaled_out : Output :=
      match os.1 with
      | .withPrior out =>
        .withPrior { train := out.train.escale scale
                     prior := out.prior.escale scale
                     extra := out.extra }
      | .raw out => .raw (out.escale scale)
    (scaled_out, os.2)
  init := enn.init
  indexer := enn.indexer

/-- `1e-9`, the fixed epsilon of `make_centered_enn*`. -/
def centeringEps : ℚ := 1 / 1000000000

/-- `make_centered_enn`: `assert x_train.ndim > 1` (modelled as `none` on
failure), then close over `x_mean`/`x_std` of `x_train` and standardize
every input before delegating. -/
def make_centered_enn {P Z K : Type}
    (enn : EpistemicNetwork P Tensor Z K) (x_train : Tensor) :
    Option (EpistemicNetwork P Tensor Z K) :=
  if x_train.ndim > 1 then
    let x_mean := x_train.mean0
    let x_std := x_train.std0
    some { apply := fun params x z =>
             enn.apply params ((x.esub x_mean).ediv (x_std.eaddc centeringEps)) z
           init := enn.init
           indexer := enn.indexer }
  else none

/-- `make_centered_enn_with_state`: the stateful variant of
`make_centered_enn`, identical centering logic. -/
def make_centered_enn_with_state {P Z K : Type}
    (enn : EpistemicNetworkWithState P Tensor Z K) (x_train : Tensor) :
    Option (EpistemicNetworkWithState P Tensor Z K) :=
  if x_train.ndim > 1 then
    let x_mean := x_train.mean0
    let x_std := x_train.std0
    some { apply := fun params state x z =>
             enn.apply params state ((x.esub x_mean).ediv (x_std.eaddc centeringEps)) z
           init := enn.init
           indexer := enn.indexer }
  else none

/-! ## Helper lemmas and concrete fixtures -/

/-- Scaling twice composes multiplicatively on tensors. -/
theorem Tensor.escale_escale (t : Tensor) (a b : ℚ) :
    (t.escale a).escale b = t.escale (a * b) := by
  simp [escale, emap, List.map_map, Function.comp, mul_assoc]

/-- Scaling by `1` is the identity on tensors. -/
theorem Tensor.escale_one (t : Tensor) : t.escale 1 = t := by
  simp [escale, emap]

/-- A concrete rank-1 tensor. -/
def sampleTensor : Tensor := ⟨[2], [3, 5]⟩

/-- A concrete rank-2 reference-input tensor (batch of two 1-feature rows). -/
def sampleTrain : Tensor := ⟨[2, 1], [1, 3]⟩

/-- A concrete stateless network echoing its input. -/
def sampleENN : EpistemicNetwork Unit Tensor Unit Unit where
  apply := fun _ x _ => .raw x
  init := fun _ _ _ => ()
  indexer := fun _ => ()

/-- A concrete stateful network echoing input and state. -/
def sampleENNState : EpistemicNetworkWithState Unit Tensor Unit Unit where
  apply := fun _ state x _ => (.raw x, state)
  init := fun _ _ _ => ((), [])
  indexer := fun _ => ()

/-- A concrete stateful network returning an `OutputWithPrior`. -/
def samplePriorENN : EpistemicNetworkWithState Unit Tensor Unit Unit where
  apply := fun _ state _x _ => (.withPrior ⟨⟨[1], [2]⟩, ⟨[1], [7]⟩, []⟩, state)
  init := fun _ _ _ => ((), [])
  indexer := fun _ => ()

/-! ## Claim theorems -/

/-- C1: on the labeled-union shape `parse_net_output` returns the `train`
field; otherwise it returns the output unchanged.  Totality (no error
cases) holds by construction: `parse_net_output` is a total function on
`Output`. -/
theorem parse_net_output_total_spec :
    (∀ o : OutputWithPrior, parse_net_output (.withPrior o) = o.train) ∧
    (∀ t : Tensor, parse_net_output (.raw t) = t) :=
  ⟨fun _ => rfl, fun _ => rfl⟩

/-- C2: wrapping a stateless network as stateful and back (with the default
empty constant state) round-trips `apply` and `init` values exactly. -/
theorem wrap_state_round_trip {P X Z K : Type} (enn : EpistemicNetwork P X Z K)
    (params : P) (x : X) (z : Z) (key : K) (x2 : X) (z2 : Z) :
    (wrap_enn_with_state_as_enn (wrap_enn_as_enn_with_state enn) none).apply params x z
      = enn.apply params x z ∧
    (wrap_enn_with_state_as_enn (wrap_enn_as_enn_with_state enn) none).init key x2 z2
      = enn.init key x2 z2 :=
  ⟨rfl, rfl⟩

/-- C3: `make_centered_enn` and `make_centered_enn_with_state` fail their
precondition (modelled as `none`) exactly when the reference inputs have
rank `< 2`; for rank `≥ 2` the adapters themselves raise nothing. -/
theorem make_centered_assertion_iff {P Z K : Type}
    (enn : EpistemicNetwork P Tensor Z K)
    (enns : EpistemicNetworkWithState P Tensor Z K) (x_train : Tensor) :
    (make_centered_enn enn x_train = none ↔ x_train.ndim < 2) ∧
    (make_centered_enn_with_state enns x_train = none ↔ x_train.ndim < 2) := by
  unfold make_centered_enn make_centered_enn_with_state
  by_cases h : x_train.ndim > 1 <;> simp [h] <;> omega

/-- C4: for rank `≥ 2` reference inputs, both centered adapters close over
`mean0`/`std0` of the reference inputs, standardize every input as
`(x - mean) / (std + 1e-9)` before delegating, and pass `init` and the
indexer through unchanged. -/
theorem make_centered_standardizes {P Z K : Type}
    (enn : EpistemicNetwork P Tensor Z K)
    (enns : EpistemicNetworkWithState P Tensor Z K) (x_train : Tensor)
    (h : 1 < x_train.ndim) :
    make_centered_enn enn x_train = some
      { apply := fun params x z =>
          enn.apply params ((x.esub x_train.mean0).ediv (x_train.std0.eaddc centeringEps)) z
        init := enn.init
        indexer := enn.indexer } ∧
    make_centered_enn_with_state enns x_train = some
      { apply := fun params state x z =>
          enns.apply params state ((x.esub x_train.mean0).ediv (x_train.std0.eaddc centeringEps)) z
        init := enns.init
        indexer := enns.indexer } := by
  unfold make_centered_enn make_centered_enn_with_state
  rw [if_pos h, if_pos h]
  exact ⟨rfl, rfl⟩

/-- Witness for C4 at a concrete rank-2 reference input and concrete
network. -/
theorem make_centered_standardizes_witness :
    1 < sampleTrain.ndim ∧
    make_centered_enn sampleENN sampleTrain = some
      { apply := fun params x z =>
          sampleENN.apply params
            ((x.esub sampleTrain.mean0).ediv (sampleTrain.std0.eaddc centeringEps)) z
        init := sampleENN.init
        indexer := sampleENN.indexer } :=
  ⟨by decide,
   (make_centered_standardizes sampleENN sampleENNState sampleTrain (by decide)).1⟩

/-- C5: `scale_enn_output` scales the wrapped output branch-wise (`train`
and `prior` independently with `extra` preserved for the labeled union;
the tensor directly otherwise) and passes `init` and the indexer through
unchanged. -/
theorem scale_enn_output_spec {P X Z K : Type}
    (enn : EpistemicNetworkWithState P X Z K) (scale : ℚ)
    (params : P) (state : HkState) (x : X) (z : Z) :
    (∀ t st1, enn.apply params state x z = (.raw t, st1) →
      (scale_enn_output enn scale).apply params state x z
        = (.raw (t.escale scale), st1)) ∧
    (∀ o st1, enn.apply params state x z = (.withPrior o, st1) →
      (scale_enn_output enn scale).apply params state x z
        = (.withPrior ⟨o.train.escale scale, o.prior.escale scale, o.extra⟩, st1)) ∧
    (scale_enn_output enn scale).init = enn.init ∧
    (scale_enn_output enn scale).indexer = enn.indexer := by
  refine ⟨?_, ?_, rfl, rfl⟩ <;> intro a st1 h <;> simp [scale_enn_output, h]

/-- Witness for C5: both output branches at concrete networks and scale 2. -/
theorem scale_enn_output_spec_witness :
    sampleENNState.apply () [] sampleTensor () = (.raw sampleTensor, []) ∧
    (scale_enn_output sampleENNState 2).apply () [] sampleTensor ()
      = (.raw (sampleTensor.escale 2), []) ∧
    samplePriorENN.apply () [] sampleTensor ()
      = (.withPrior ⟨⟨[1], [2]⟩, ⟨[1], [7]⟩, []⟩, []) ∧
    (scale_enn_output samplePriorENN 2).apply () [] sampleTensor ()
      = (.withPrior ⟨(⟨[1], [2]⟩ : Tensor).escale 2, (⟨[1], [7]⟩ : Tensor).escale 2, []⟩, []) :=
  ⟨rfl,
   (scale_enn_output_spec sampleENNState 2 () [] sampleTensor ()).1 sampleTensor [] rfl,
   rfl,
   (scale_enn_output_spec samplePriorENN 2 () [] sampleTensor ()).2.1
     ⟨⟨[1], [2]⟩, ⟨[1], [7]⟩, []⟩ [] rfl⟩

/-- C6: `parse_to_output_with_prior` returns an `OutputWithPrior` argument
unchanged, lifts a raw tensor to `train = t`, `prior = zeros_like t`
(default empty `extra`), and wrapping its result again is the identity. -/
theorem parse_to_output_with_prior_spec :
    (∀ o : OutputWithPrior, parse_to_output_with_prior (.withPrior o) = o) ∧
    (∀ t : Tensor, parse_to_output_with_prior (.raw t)
      = ⟨t, Tensor.zeros_like t, []⟩) ∧
    (∀ out : Output,
      parse_to_output_with_prior (.withPrior (parse_to_output_with_prior out))
        = parse_to_output_with_prior out) :=
  ⟨fun _ => rfl, fun _ => rfl, fun out => by cases out <;> rfl⟩

/-- C7: `wrap_transformed_as_enn` ignores the index in both `apply` and
`init` (delegating to the transformed pair) and its indexer is the
identity on seeds. -/
theorem wrap_transformed_as_enn_spec {P X K : Type}
    (transformed : Transformed P X K) (params : P) (x : X) (z1 z2 : K)
    (key : K) (x2 : X) :
    (wrap_transformed_as_enn transformed).apply params x z1
      = (wrap_transformed_as_enn transformed).apply params x z2 ∧
    (wrap_transformed_as_enn transformed).apply params x z1
      = transformed.apply params x ∧
    (wrap_transformed_as_enn transformed).init key x2 z1
      = (wrap_transformed_as_enn transformed).init key x2 z2 ∧
    (wrap_transformed_as_enn transformed).init key x2 z1
      = transformed.init key x2 ∧
    (wrap_transformed_as_enn transformed).indexer key = key :=
  ⟨rfl, rfl, rfl, rfl, rfl⟩

/-- C8: scaling twice with `s1` then `s2` gives the same `apply` values as
scaling once with `s1 * s2` (exact over the rational model). -/
theorem scale_enn_output_compose {P X Z K : Type}
    (enn : EpistemicNetworkWithState P X Z K) (s1 s2 : ℚ)
    (params : P) (state : HkState) (x : X) (z : Z) :
    (scale_enn_output (scale_enn_output enn s1) s2).apply params state x z
      = (scale_enn_output enn (s1 * s2)).apply params state x z := by
  simp only [scale_enn_output]
  cases h : enn.apply params state x z with
  | mk out st => cases out <;> simp [Tensor.escale_escale]

/-- C9: scaling by `1` leaves the `apply` output (and threaded state)
numerically identical to the original network. -/
theorem scale_enn_output_one {P X Z K : Type}
    (enn : EpistemicNetworkWithState P X Z K)
    (params : P) (state : HkState) (x : X) (z : Z) :
    (scale_enn_output enn 1).apply params state x z
      = enn.apply params state x z := by
  simp only [scale_enn_output]
  cases h : enn.apply params state x z with
  | mk out st => cases out <;> simp [Tensor.escale_one]

/-- C10: the state component returned by the scaled `apply` is exactly the
state produced by the wrapped network's `apply` on that call. -/
theorem scale_enn_output_preserves_state {P X Z K : Type}
    (enn : EpistemicNetworkWithState P X Z K) (scale : ℚ)
    (params : P) (state : HkState) (x : X) (z : Z) :
    ((scale_enn_output enn scale).apply params state x z).2
      = (enn.apply params state x z).2 :=
  rfl
